import Mathlib

/-!
Verification of the mlab-metrics-api aggregation worker and locale
components, as a shallow embedding in Lean 4.

The definitions below are translated from the Python sources:
  * `metrics_computation_system/worker.py` (the metric worker: task
    handlers, request expansion, and `_ComputeMetricData`),
  * `common/cloud_sql_backend.py` (`SetMetricData` upsert semantics),
  * `common/big_query_client.py` (result-retrieval deadline handling),
  * `common/locales.py` (`LocalesManager._Refresh`, `LocaleFinder._Refresh`,
    `GeoTree._LatLonToCartesian`).

Python floats are embedded as rationals (`ℚ`) except in the geometric
projection, where the source computes with trigonometric functions and the
embedding uses real numbers.  Python exceptions are embedded as `Except`
values; a raised exception leaves the object state unchanged because every
source method mutates its object only after all fallible work is done.
-/

/-! ## Data model of the aggregation worker (`worker.py`) -/

/-- The minimum number of samples a bucket needs before its aggregate is
published (`_MIN_ENTRIES_THRESHOLD = 100` in `worker.py`). -/
def MIN_ENTRIES_THRESHOLD : Nat := 100

/-- One row consumed from the analytical backend by `_ComputeMetricData`:
country code, region code, raw city name, and the numeric sample value. -/
structure MRow where
  country : String
  region : String
  city : String
  value : ℚ
deriving DecidableEq, Repr

/-- UTF-8 bytes of a character, as `urllib.quote` operates on the UTF-8
encoding of the city name. -/
def utf8Bytes (c : Char) : List Nat :=
  let n := c.toNat
  if n < 0x80 then [n]
  else if n < 0x800 then
    [0xC0 + n / 0x40, 0x80 + n % 0x40]
  else if n < 0x10000 then
    [0xE0 + n / 0x1000, 0x80 + n / 0x40 % 0x40, 0x80 + n % 0x40]
  else
    [0xF0 + n / 0x40000, 0x80 + n / 0x1000 % 0x40, 0x80 + n / 0x40 % 0x40,
      0x80 + n % 0x40]

/-- Uppercase hexadecimal digit. -/
def hexDigit (n : Nat) : Char :=
  if n < 10 then Char.ofNat (48 + n) else Char.ofNat (55 + n)

/-- Whether a byte is left unescaped by `urllib.quote` (letters, digits,
and the characters `_ . -` plus the default safe character `/`). -/
def quoteSafe (b : Nat) : Bool :=
  (65 ≤ b && b ≤ 90) || (97 ≤ b && b ≤ 122) || (48 ≤ b && b ≤ 57) ||
    b == 95 || b == 46 || b == 45 || b == 47

/-- Percent-encoding of one byte, as `urllib.quote` produces. -/
def quoteByte (b : Nat) : List Char :=
  if quoteSafe b then [Char.ofNat b]
  else [Char.ofNat 37, hexDigit (b / 16), hexDigit (b % 16)]

/-- Embedding of `urllib.quote(s.encode(utf-8))` from `_ComputeMetricData`. -/
def pyquote (s : String) : String :=
  String.mk (((s.data.map utf8Bytes).flatten.map quoteByte).flatten)

/-- The four locale granularities of the bucket map `metric_values`. -/
inductive Gran where
  | city
  | region
  | country
  | world
deriving DecidableEq, Repr

/-- The bucket key a row contributes to at each granularity, following
`_ComputeMetricData`: `city = country_region_quotedcity`,
`region = country_region`, `country = country`, `world = "world"`. -/
def granKey (g : Gran) (r : MRow) : String :=
  match g with
  | .city => r.country ++ "_" ++ r.region ++ "_" ++ pyquote r.city
  | .region => r.country ++ "_" ++ r.region
  | .country => r.country
  | .world => "world"

/-- A bucket map for one granularity: association list from locale key to
the ordered list of sample values (a Python `defaultdict(list)`). -/
abbrev Buckets : Type := List (String × List ℚ)

/-- Appending a value to a bucket, as `metric_values[t][locale].append(v)`
does on a `defaultdict(list)`: extends the existing entry or creates a new
singleton entry. -/
def bucketAdd (bs : Buckets) (k : String) (v : ℚ) : Buckets :=
  match bs with
  | [] => [(k, [v])]
  | (k0, vs) :: rest =>
      if k0 = k then (k0, vs ++ [v]) :: rest
      else (k0, vs) :: bucketAdd rest k v

/-- Reading a bucket: the value list stored under a key, `[]` if absent. -/
def bucketGet (bs : Buckets) (k : String) : List ℚ :=
  match bs with
  | [] => []
  | (k0, vs) :: rest => if k0 = k then vs else bucketGet rest k

/-- The in-memory bucket state `metric_values` of one task: one bucket map
per granularity. -/
structure MetricValues where
  city : Buckets
  region : Buckets
  country : Buckets
  world : Buckets
deriving DecidableEq, Repr

/-- Projection of `metric_values` at a granularity. -/
def granBuckets (mv : MetricValues) (g : Gran) : Buckets :=
  match g with
  | .city => mv.city
  | .region => mv.region
  | .country => mv.country
  | .world => mv.world

/-- Initial `metric_values`: empty maps, except that the world granularity
starts with the literal entry for the single world bucket. -/
def initialMetricValues : MetricValues :=
  { city := [], region := [], country := [], world := [("world", [])] }

/-- Consuming one row: its value is appended to the city, region, country
and world buckets in the same step (`worker.py` lines 452-455). -/
def addRowValues (mv : MetricValues) (r : MRow) : MetricValues :=
  { city := bucketAdd mv.city (granKey .city r) r.value
    region := bucketAdd mv.region (granKey .region r) r.value
    country := bucketAdd mv.country (granKey .country r) r.value
    world := bucketAdd mv.world (granKey .world r) r.value }

/-- Consuming all rows of the merged result sets, in order. -/
def consumeRows (rows : List MRow) : MetricValues :=
  rows.foldl addRowValues initialMetricValues

/-- The keys collected into `skipped_locales` for one granularity: the
buckets with fewer entries than the threshold (`worker.py` lines 464-473). -/
def skippedKeys (bs : Buckets) : List String :=
  (bs.filter (fun kv => kv.2.length < MIN_ENTRIES_THRESHOLD)).map (fun kv => kv.1)

/-- Removing the buckets below the minimum-entries threshold: the source
first collects the keys of the undersized buckets into `skipped_locales`
and then deletes exactly those keys (`worker.py` lines 464-477). -/
def removeBelowThreshold (bs : Buckets) : Buckets :=
  bs.filter (fun kv => ¬ kv.1 ∈ skippedKeys bs)

/-- Insertion step of the sort underlying the median. -/
def insertLe (a : ℚ) : List ℚ → List ℚ
  | [] => [a]
  | b :: rest => if a ≤ b then a :: b :: rest else b :: insertLe a rest

/-- Sorting a list of samples in nondecreasing order. -/
def sortValues (l : List ℚ) : List ℚ := l.foldr insertLe []

/-- Embedding of `numpy.median`: sort the samples, take the middle element
for odd length and the mean of the two middle elements for even length. -/
def numpyMedian (l : List ℚ) : ℚ :=
  let s := sortValues l
  if l.length % 2 = 1 then s.getD (l.length / 2) 0
  else (s.getD (l.length / 2 - 1) 0 + s.getD (l.length / 2) 0) / 2

/-- The datapoints written for one granularity: one `(locale, median)`
pair per surviving bucket (`worker.py` lines 492-499). -/
def bucketWrites (bs : Buckets) : List (String × ℚ) :=
  bs.map (fun kv => (kv.1, numpyMedian kv.2))

/-- The datapoint writes for one granularity of a row set, after threshold
filtering. -/
def granWrites (rows : List MRow) (g : Gran) : List (String × ℚ) :=
  bucketWrites (removeBelowThreshold (granBuckets (consumeRows rows) g))

/-- All datapoints written by `_ComputeMetricData` for a consumed row set.
When the query produced no rows the method returns early with no writes
(`worker.py` lines 457-461); the preceding query-template check aborts
before any row is consumed and is outside this row-level embedding. -/
def ComputeMetricDataWrites (rows : List MRow) : List (String × ℚ) :=
  if rows.isEmpty then []
  else
    granWrites rows .city ++ granWrites rows .region ++
      granWrites rows .country ++ granWrites rows .world

/-- The samples of one bucket, characterized independently of the fold:
the values of exactly the rows whose key at granularity `g` is `l`. -/
def granSamples (rows : List MRow) (g : Gran) (l : String) : List ℚ :=
  (rows.filter (fun r => granKey g r = l)).map MRow.value

/-! ## Bucket lemmas -/

theorem bucketGet_bucketAdd (bs : Buckets) (k k1 : String) (v : ℚ) :
    bucketGet (bucketAdd bs k1 v) k =
      if k1 = k then bucketGet bs k ++ [v] else bucketGet bs k := by
  induction bs with
  | nil =>
      by_cases h : k1 = k <;> simp [bucketAdd, bucketGet, h]
  | cons hd tl ih =>
      obtain ⟨k0, vs⟩ := hd
      by_cases h0 : k0 = k1
      · subst h0
        by_cases h : k0 = k <;> simp [bucketAdd, bucketGet, h]
      · by_cases h : k0 = k
        · subst h
          have h1 : ¬ k1 = k0 := fun hh => h0 hh.symm
          simp [bucketAdd, h0, bucketGet, h1]
        · simp [bucketAdd, h0, bucketGet, h, ih]

theorem bucketGet_consume (rows : List MRow) (g : Gran) (l : String) :
    ∀ mv : MetricValues,
      bucketGet (granBuckets (rows.foldl addRowValues mv) g) l =
        bucketGet (granBuckets mv g) l ++ granSamples rows g l := by
  induction rows with
  | nil => intro mv; simp [granSamples]
  | cons r rest ih =>
      intro mv
      have hstep : bucketGet (granBuckets (addRowValues mv r) g) l =
          if granKey g r = l then bucketGet (granBuckets mv g) l ++ [r.value]
          else bucketGet (granBuckets mv g) l := by
        cases g <;> simp [granBuckets, addRowValues, bucketGet_bucketAdd]
      by_cases h : granKey g r = l
      · simp only [List.foldl_cons, ih, hstep, h, if_pos]
        simp [granSamples, h]
      · simp only [List.foldl_cons, ih, hstep, h, if_neg, not_false_iff]
        simp [granSamples, h]

theorem granSamples_eq (rows : List MRow) (g : Gran) (l : String) :
    bucketGet (granBuckets (consumeRows rows) g) l = granSamples rows g l := by
  have h := bucketGet_consume rows g l initialMetricValues
  cases g <;> simpa [consumeRows, initialMetricValues, granBuckets, bucketGet] using h


/-- The key list of a bucket map. -/
def bucketKeys (bs : Buckets) : List String := bs.map (fun kv => kv.1)

theorem bucketKeys_bucketAdd_mem (bs : Buckets) (k : String) (v : ℚ)
    (h : k ∈ bucketKeys bs) : bucketKeys (bucketAdd bs k v) = bucketKeys bs := by
  induction bs with
  | nil => simp [bucketKeys] at h
  | cons hd tl ih =>
      obtain ⟨k0, vs⟩ := hd
      have hcons : bucketKeys ((k0, vs) :: tl) = k0 :: bucketKeys tl := rfl
      by_cases h0 : k0 = k
      · subst h0
        simp [bucketAdd, bucketKeys]
      · rw [hcons] at h
        have htl : k ∈ bucketKeys tl := by
          rcases List.mem_cons.mp h with h1 | h1
          · exact absurd h1.symm h0
          · exact h1
        have hgoal : bucketKeys (bucketAdd ((k0, vs) :: tl) k v) =
            k0 :: bucketKeys (bucketAdd tl k v) := by
          simp [bucketAdd, h0, bucketKeys]
        rw [hgoal, ih htl, hcons]

theorem bucketKeys_bucketAdd_not_mem (bs : Buckets) (k : String) (v : ℚ)
    (h : ¬ k ∈ bucketKeys bs) :
    bucketKeys (bucketAdd bs k v) = bucketKeys bs ++ [k] := by
  induction bs with
  | nil => simp [bucketAdd, bucketKeys]
  | cons hd tl ih =>
      obtain ⟨k0, vs⟩ := hd
      have hcons : bucketKeys ((k0, vs) :: tl) = k0 :: bucketKeys tl := rfl
      have h0 : ¬ k0 = k := by
        intro hk
        apply h
        rw [hcons, hk]
        exact List.mem_cons_self k (bucketKeys tl)
      have htl : ¬ k ∈ bucketKeys tl := by
        intro hk
        apply h
        rw [hcons]
        exact List.mem_cons_of_mem _ hk
      have hgoal : bucketKeys (bucketAdd ((k0, vs) :: tl) k v) =
          k0 :: bucketKeys (bucketAdd tl k v) := by
        simp [bucketAdd, h0, bucketKeys]
      rw [hgoal, ih htl, hcons]
      rfl

theorem nodup_bucketAdd (bs : Buckets) (k : String) (v : ℚ)
    (h : (bucketKeys bs).Nodup) : (bucketKeys (bucketAdd bs k v)).Nodup := by
  by_cases hmem : k ∈ bucketKeys bs
  · rw [bucketKeys_bucketAdd_mem bs k v hmem]
    exact h
  · rw [bucketKeys_bucketAdd_not_mem bs k v hmem]
    simpa [List.nodup_append] using ⟨h, hmem⟩

theorem nodup_consume (rows : List MRow) (g : Gran) :
    (bucketKeys (granBuckets (consumeRows rows) g)).Nodup := by
  suffices h : ∀ mv : MetricValues,
      (bucketKeys (granBuckets mv g)).Nodup →
      (bucketKeys (granBuckets (rows.foldl addRowValues mv) g)).Nodup by
    apply h
    cases g <;> simp [initialMetricValues, granBuckets, bucketKeys]
  induction rows with
  | nil => intro mv h; simpa using h
  | cons r rest ih =>
      intro mv h
      simp only [List.foldl_cons]
      apply ih
      cases g <;> exact nodup_bucketAdd _ _ _ h

theorem bucketGet_of_mem (bs : Buckets) (l : String) (vs : List ℚ)
    (hnd : (bucketKeys bs).Nodup) (h : (l, vs) ∈ bs) : bucketGet bs l = vs := by
  induction bs with
  | nil => simp at h
  | cons hd tl ih =>
      obtain ⟨k0, vs0⟩ := hd
      have hcons : bucketKeys ((k0, vs0) :: tl) = k0 :: bucketKeys tl := rfl
      rw [hcons, List.nodup_cons] at hnd
      rcases List.mem_cons.mp h with heq | htl
      · injection heq with h1 h2
        subst h1
        subst h2
        simp [bucketGet]
      · have hk0 : ¬ k0 = l := by
          intro hk
          subst hk
          exact hnd.1 (List.mem_map.mpr ⟨(k0, vs), htl, rfl⟩)
        simp [bucketGet, hk0]
        exact ih hnd.2 htl

theorem mem_of_bucketGet (bs : Buckets) (l : String)
    (h : l ∈ bucketKeys bs) : (l, bucketGet bs l) ∈ bs := by
  induction bs with
  | nil => simp [bucketKeys] at h
  | cons hd tl ih =>
      obtain ⟨k0, vs0⟩ := hd
      by_cases hk : k0 = l
      · subst hk
        simp [bucketGet]
      · have h2 : l = k0 ∨ l ∈ bucketKeys tl := by simpa [bucketKeys] using h
        have htl : l ∈ bucketKeys tl := by
          rcases h2 with h1 | h1
          · exact absurd h1.symm hk
          · exact h1
        have hioc : bucketGet ((k0, vs0) :: tl) l = bucketGet tl l := by
          simp [bucketGet, hk]
        rw [hioc]
        exact List.mem_cons_of_mem _ (ih htl)

theorem bucketGet_ne_nil_mem (bs : Buckets) (l : String)
    (h : bucketGet bs l ≠ []) : l ∈ bucketKeys bs := by
  induction bs with
  | nil => simp [bucketGet] at h
  | cons hd tl ih =>
      obtain ⟨k0, vs0⟩ := hd
      by_cases hk : k0 = l
      · simp [bucketKeys, hk]
      · simp only [bucketGet, if_neg hk] at h
        have := ih h
        simp [bucketKeys] at this ⊢
        exact Or.inr this

theorem mem_skippedKeys (bs : Buckets) (l : String) (vs : List ℚ)
    (hnd : (bucketKeys bs).Nodup) (hmem : (l, vs) ∈ bs) :
    l ∈ skippedKeys bs ↔ vs.length < MIN_ENTRIES_THRESHOLD := by
  unfold skippedKeys
  constructor
  · intro hin
    obtain ⟨kv, hkv, hkey⟩ := List.mem_map.mp hin
    obtain ⟨k2, vs2⟩ := kv
    have hkv2 := List.mem_filter.mp hkv
    have hlen : vs2.length < MIN_ENTRIES_THRESHOLD := by simpa using hkv2.2
    have hkeq : k2 = l := hkey
    subst hkeq
    have e1 := bucketGet_of_mem bs _ _ hnd hkv2.1
    have e2 := bucketGet_of_mem bs _ _ hnd hmem
    rw [e2] at e1
    rw [e1]
    exact hlen
  · intro hlen
    exact List.mem_map.mpr ⟨(l, vs), List.mem_filter.mpr ⟨hmem, by simpa using hlen⟩, rfl⟩

theorem removeBelowThreshold_mem (bs : Buckets) (l : String) (vs : List ℚ)
    (hnd : (bucketKeys bs).Nodup) :
    (l, vs) ∈ removeBelowThreshold bs ↔
      (l, vs) ∈ bs ∧ MIN_ENTRIES_THRESHOLD ≤ vs.length := by
  unfold removeBelowThreshold
  constructor
  · intro hmem
    have h1 := List.mem_filter.mp hmem
    have hp : ¬ l ∈ skippedKeys bs := by simpa using h1.2
    refine ⟨h1.1, ?_⟩
    by_contra hlen
    push_neg at hlen
    exact hp ((mem_skippedKeys bs l vs hnd h1.1).mpr hlen)
  · rintro ⟨hmem, hlen⟩
    refine List.mem_filter.mpr ⟨hmem, ?_⟩
    have hns : ¬ l ∈ skippedKeys bs := by
      intro hin
      have := (mem_skippedKeys bs l vs hnd hmem).mp hin
      omega
    simpa using hns

theorem removeBelowThreshold_keys_sublist (bs : Buckets) :
    (bucketKeys (removeBelowThreshold bs)).Sublist (bucketKeys bs) := by
  unfold removeBelowThreshold bucketKeys
  exact List.Sublist.map _ (List.filter_sublist bs)

theorem bucketWrites_mem (bs : Buckets) (l : String) (v : ℚ) :
    (l, v) ∈ bucketWrites bs ↔ ∃ vs, (l, vs) ∈ bs ∧ v = numpyMedian vs := by
  unfold bucketWrites
  simp only [List.mem_map]
  constructor
  · rintro ⟨⟨k1, vs1⟩, hmem, heq⟩
    injection heq with h1 h2
    subst h1
    exact ⟨vs1, hmem, h2.symm⟩
  · rintro ⟨vs, hmem, hv⟩
    exact ⟨(l, vs), hmem, by simp [hv]⟩

/-- The writes of one granularity keep the bucket keys. -/
theorem bucketWrites_keys (bs : Buckets) :
    (bucketWrites bs).map (fun kv => kv.1) = bucketKeys bs := by
  unfold bucketWrites bucketKeys
  rw [List.map_map]
  rfl

/-- C2: for every consumed row set, one datapoint is written per bucket
whose sample count reaches the minimum-entries threshold of 100 (buckets
below the threshold produce no write), each written value is the median of
exactly that bucket's samples, keys are written at most once per
granularity, and the complete write list is the concatenation of the four
granularities' writes. -/
theorem C2_threshold_median_writes (rows : List MRow) (g : Gran) :
    (∀ l v, (l, v) ∈ granWrites rows g ↔
      MIN_ENTRIES_THRESHOLD ≤ (granSamples rows g l).length ∧
        v = numpyMedian (granSamples rows g l)) ∧
    ((granWrites rows g).map (fun kv => kv.1)).Nodup ∧
    ComputeMetricDataWrites rows =
      granWrites rows .city ++ granWrites rows .region ++
        granWrites rows .country ++ granWrites rows .world := by
  have hnd := nodup_consume rows g
  refine ⟨?_, ?_, ?_⟩
  · intro l v
    constructor
    · intro hmem
      obtain ⟨vs, hvs, hv⟩ := (bucketWrites_mem _ l v).mp hmem
      obtain ⟨hbs, hlen⟩ := (removeBelowThreshold_mem _ l vs hnd).mp hvs
      have hget := bucketGet_of_mem _ l vs hnd hbs
      rw [granSamples_eq] at hget
      subst hget
      exact ⟨hlen, hv⟩
    · rintro ⟨hlen, hv⟩
      have hne : granSamples rows g l ≠ [] := by
        intro hnil
        rw [hnil] at hlen
        simp [MIN_ENTRIES_THRESHOLD] at hlen
      have hget : bucketGet (granBuckets (consumeRows rows) g) l =
          granSamples rows g l := granSamples_eq rows g l
      have hkey : l ∈ bucketKeys (granBuckets (consumeRows rows) g) :=
        bucketGet_ne_nil_mem _ l (by rw [hget]; exact hne)
      have hbs := mem_of_bucketGet _ l hkey
      rw [hget] at hbs
      refine (bucketWrites_mem _ l v).mpr ⟨granSamples rows g l, ?_, hv⟩
      exact (removeBelowThreshold_mem _ l _ hnd).mpr ⟨hbs, hlen⟩
  · unfold granWrites
    rw [bucketWrites_keys]
    exact hnd.sublist (removeBelowThreshold_keys_sublist _)
  · by_cases hrows : rows.isEmpty
    · have hnil : rows = [] := List.isEmpty_iff.mp hrows
      subst hnil
      rfl
    · simp [ComputeMetricDataWrites, hrows]

/-- Total number of samples held across all buckets of one granularity. -/
def bucketTotal (bs : Buckets) : Nat :=
  (bs.map (fun kv => kv.2.length)).sum

theorem bucketTotal_bucketAdd (bs : Buckets) (k : String) (v : ℚ) :
    bucketTotal (bucketAdd bs k v) = bucketTotal bs + 1 := by
  induction bs with
  | nil => simp [bucketAdd, bucketTotal]
  | cons hd tl ih =>
      obtain ⟨k0, vs⟩ := hd
      by_cases h0 : k0 = k
      · simp [bucketAdd, h0, bucketTotal]
        omega
      · simp [bucketAdd, h0, bucketTotal] at ih ⊢
        omega

theorem bucketTotal_consume (rows : List MRow) (g : Gran) :
    ∀ mv : MetricValues,
      bucketTotal (granBuckets (rows.foldl addRowValues mv) g) =
        bucketTotal (granBuckets mv g) + rows.length := by
  induction rows with
  | nil => intro mv; simp
  | cons r rest ih =>
      intro mv
      have hstep : bucketTotal (granBuckets (addRowValues mv r) g) =
          bucketTotal (granBuckets mv g) + 1 := by
        cases g <;> simp [granBuckets, addRowValues, bucketTotal_bucketAdd]
      simp only [List.foldl_cons, ih, hstep, List.length_cons]
      omega

/-- C10: after all rows of one task are consumed (before threshold
filtering), the single world bucket holds one sample per consumed row, and
at every granularity the bucket sizes sum to the number of consumed rows:
each row was appended to exactly one bucket per granularity. -/
theorem C10_bucket_accounting (rows : List MRow) :
    (bucketGet (consumeRows rows).world "world").length = rows.length ∧
    ∀ g : Gran, bucketTotal (granBuckets (consumeRows rows) g) = rows.length := by
  constructor
  · have h := granSamples_eq rows .world "world"
    have hworld : granSamples rows .world "world" = rows.map MRow.value := by
      unfold granSamples
      have : rows.filter (fun r => granKey .world r = "world") = rows := by
        apply List.filter_eq_self.mpr
        intro r _
        simp [granKey]
      rw [this]
    have hw2 : bucketGet (granBuckets (consumeRows rows) .world) "world" =
        rows.map MRow.value := by rw [h, hworld]
    have : granBuckets (consumeRows rows) .world = (consumeRows rows).world := rfl
    rw [this] at hw2
    rw [hw2, List.length_map]
  · intro g
    have h := bucketTotal_consume rows g initialMetricValues
    have hinit : bucketTotal (granBuckets initialMetricValues g) = 0 := by
      cases g <;> simp [initialMetricValues, granBuckets, bucketTotal]
    unfold consumeRows
    rw [h, hinit]
    omega

/-! ## Task handlers of the metric worker (`worker.py` lines 293-346) -/

/-- Year and month of one data table, as parsed from the `YYYY_MM` task
date parameter. -/
abbrev WDate : Type := Nat × Nat

/-- The backend operations a task handler can perform against the stores. -/
inductive BackendOp where
  | deleteMetricInfo (metric : String)
  | deleteMetricData (metric : String) (date : Option WDate)
  | createMetricDataTable (metric : String)
  | computeMetricData (metric : String) (date : WDate)
deriving DecidableEq, Repr

/-- One observable event of a task handler: a log line or a backend
operation. -/
inductive WEvent where
  | log (msg : String)
  | op (o : BackendOp)
deriving DecidableEq, Repr

/-- The backend operations contained in an event trace. -/
def backendOps (tr : List WEvent) : List BackendOp :=
  tr.filterMap (fun e => match e with
    | .log _ => none
    | .op o => some o)

/-- Embedding of `MetricWorker.DeleteMetric` (`worker.py` lines 293-307):
log, check the shutdown flag and return if set, else delete the metric info
and data. -/
def DeleteMetric (shuttingDown : Bool) (metric : String) : List WEvent :=
  [.log "Deleting metric."] ++
    (if shuttingDown then [.log "Interrupted!  Shutting down."]
     else [.op (.deleteMetricInfo metric), .op (.deleteMetricData metric none),
       .log "Work completed."])

/-- Embedding of the fully-specified branch of `MetricWorker.RefreshMetric`
(`worker.py` lines 309-326).  The source checks the shutdown flag and logs
the interruption but contains no `return` in that branch, so the table
creation and the metric computation run in either case.  The
under-specified branch (missing metric or date) delegates to
`_ExpandMetricRequest`, embedded separately below. -/
def RefreshMetric (shuttingDown : Bool) (metric : String) (date : WDate) :
    List WEvent :=
  [.log "Refreshing metric."] ++
    (if shuttingDown then [.log "Interrupted!  Shutting down."] else []) ++
    [.op (.createMetricDataTable metric), .op (.computeMetricData metric date),
      .log "Work completed."]

/-- Embedding of the fully-specified branch of `MetricWorker.UpdateMetric`
(`worker.py` lines 328-346): log, check the shutdown flag and return if
set, else create the table, delete the stale month and recompute it. -/
def UpdateMetric (shuttingDown : Bool) (metric : String) (date : WDate) :
    List WEvent :=
  [.log "Updating (recomputing) metric."] ++
    (if shuttingDown then [.log "Interrupted!  Shutting down."]
     else [.op (.createMetricDataTable metric),
       .op (.deleteMetricData metric (some date)),
       .op (.computeMetricData metric date)])

/-- C1 (code bug): with the shutdown flag set, `DeleteMetric` and
`UpdateMetric` stop without performing any backend operation, but
`RefreshMetric` only logs the interruption and then still creates the
metric table and computes the metric data, because the source lacks the
`return` its two sibling handlers have. -/
theorem C1_shutdown_check (metric : String) (date : WDate) :
    backendOps (DeleteMetric true metric) = [] ∧
    backendOps (UpdateMetric true metric date) = [] ∧
    backendOps (RefreshMetric true metric date) =
      [.createMetricDataTable metric, .computeMetricData metric date] := by
  refine ⟨rfl, rfl, rfl⟩

/-! ## Request expansion (`_ExpandMetricRequest`, `worker.py` lines 351-385) -/

/-- The worker request kinds (`RequestType` in `worker.py`). -/
inductive WRequestType where
  | delete_metric
  | refresh_metric
  | update_metric
  | update_locales
deriving DecidableEq, Repr

/-- A fully-specified task parameter map sent to the worker queue. -/
structure WTask where
  request : WRequestType
  metric : String
  date : String
deriving DecidableEq, Repr

/-- Decimal rendering of a natural number padded on the left, used for the
`%04d`/`%02d` conversions of `_DATE_FMT`. -/
def padLeft (c : Char) (w : Nat) (n : Nat) : String :=
  let s := toString n
  String.mk (List.replicate (w - s.length) c) ++ s

/-- Embedding of `_DATE_FMT` (`%04d_%02d`) applied to a (year, month). -/
def DATE_FMT (d : WDate) : String :=
  padLeft (Char.ofNat 48) 4 d.1 ++ "_" ++ padLeft (Char.ofNat 48) 2 d.2

/-- Ordering of `datetime.date` values restricted to first-of-month dates:
lexicographic on (year, month). -/
def dateLe (a b : WDate) : Bool :=
  a.1 < b.1 || (a.1 = b.1 && a.2 ≤ b.2)

/-- Insertion step of the sort used to embed the `sorted()` builtin. -/
def insertSortedBy {α : Type} (le : α → α → Bool) (a : α) : List α → List α
  | [] => [a]
  | b :: rest => if le a b then a :: b :: rest else b :: insertSortedBy le a rest

/-- Embedding of the `sorted()` builtin over a comparison. -/
def sortBy {α : Type} (le : α → α → Bool) (l : List α) : List α :=
  l.foldr (insertSortedBy le) []

theorem insertSortedBy_perm {α : Type} (le : α → α → Bool) (a : α)
    (l : List α) : (insertSortedBy le a l).Perm (a :: l) := by
  induction l with
  | nil => simp [insertSortedBy]
  | cons b rest ih =>
      by_cases h : le a b
      · simp [insertSortedBy, h]
      · have hstep : insertSortedBy le a (b :: rest) =
            b :: insertSortedBy le a rest := by
          simp [insertSortedBy, h]
        rw [hstep]
        exact (ih.cons b).trans (List.Perm.swap a b rest)

theorem sortBy_perm {α : Type} (le : α → α → Bool) (l : List α) :
    (sortBy le l).Perm l := by
  induction l with
  | nil => simp [sortBy]
  | cons a rest ih =>
      have h1 : sortBy le (a :: rest) = insertSortedBy le a (sortBy le rest) := rfl
      rw [h1]
      exact (insertSortedBy_perm le a (sortBy le rest)).trans (ih.cons a)

/-- The months for which tasks are emitted when a date-less request for a
known metric is expanded (`worker.py` lines 369-385): a refresh computes
the sorted set difference of analytical-backend months minus
relational-backend months; an update takes every analytical-backend month;
any other request type is logged as inexpandable and emits nothing. -/
def datesToCompute (rt : WRequestType) (bq cs : List WDate) : List WDate :=
  match rt with
  | .refresh_metric => sortBy dateLe ((bq.filter (fun d => ¬ d ∈ cs)).dedup)
  | .update_metric => sortBy dateLe bq
  | _ => []

/-- Embedding of the date-expansion branch of `_ExpandMetricRequest`: one
task per computed month, carrying the request type, the metric and the
formatted month. -/
def ExpandMetricRequest (rt : WRequestType) (metric : String)
    (bq cs : List WDate) : List WTask :=
  (datesToCompute rt bq cs).map
    (fun d => { request := rt, metric := metric, date := DATE_FMT d })

/-- C6: expanding a date-less request for a metric emits, for a refresh,
exactly one task per month present in the analytical backend but absent
from the relational backend, and for an update exactly one task per month
present in the analytical backend; every task carries the request type,
the metric and the formatted month. -/
theorem C6_expand_metric_request (metric : String) (bq cs : List WDate)
    (hbq : bq.Nodup) :
    (∀ d, d ∈ datesToCompute .refresh_metric bq cs ↔ (d ∈ bq ∧ ¬ d ∈ cs)) ∧
    (datesToCompute .refresh_metric bq cs).Nodup ∧
    ExpandMetricRequest .refresh_metric metric bq cs =
      (datesToCompute .refresh_metric bq cs).map
        (fun d => WTask.mk .refresh_metric metric (DATE_FMT d)) ∧
    (∀ d, d ∈ datesToCompute .update_metric bq cs ↔ d ∈ bq) ∧
    (datesToCompute .update_metric bq cs).Nodup ∧
    ExpandMetricRequest .update_metric metric bq cs =
      (datesToCompute .update_metric bq cs).map
        (fun d => WTask.mk .update_metric metric (DATE_FMT d)) := by
  have hperm1 := sortBy_perm dateLe ((bq.filter (fun d => ¬ d ∈ cs)).dedup)
  have hperm2 := sortBy_perm dateLe bq
  refine ⟨?_, ?_, rfl, ?_, ?_, rfl⟩
  · intro d
    rw [show datesToCompute .refresh_metric bq cs =
      sortBy dateLe ((bq.filter (fun d => ¬ d ∈ cs)).dedup) from rfl]
    rw [hperm1.mem_iff, List.mem_dedup, List.mem_filter]
    simp
  · rw [show datesToCompute .refresh_metric bq cs =
      sortBy dateLe ((bq.filter (fun d => ¬ d ∈ cs)).dedup) from rfl]
    exact hperm1.nodup_iff.mpr (List.nodup_dedup _)
  · intro d
    rw [show datesToCompute .update_metric bq cs = sortBy dateLe bq from rfl]
    exact hperm2.mem_iff
  · rw [show datesToCompute .update_metric bq cs = sortBy dateLe bq from rfl]
    exact hperm2.nodup_iff.mpr hbq

/-- Witness for C6, on the scenario from the specification: analytical
months 2021_01 and 2021_02, relational month 2021_01, metric latency. -/
theorem C6_expand_metric_request_witness :
    ([((2021 : Nat), (1 : Nat)), (2021, 2)] : List WDate).Nodup ∧
    (∀ d, d ∈ datesToCompute .refresh_metric
        [((2021 : Nat), (1 : Nat)), (2021, 2)] [(2021, 1)] ↔
      (d ∈ ([((2021 : Nat), (1 : Nat)), (2021, 2)] : List WDate) ∧
        ¬ d ∈ ([((2021 : Nat), (1 : Nat))] : List WDate))) ∧
    ExpandMetricRequest .refresh_metric "latency"
        [((2021 : Nat), (1 : Nat)), (2021, 2)] [(2021, 1)] =
      [WTask.mk .refresh_metric "latency" "2021_02"] :=
  ⟨by decide,
   (C6_expand_metric_request "latency" _ _ (by decide)).1,
   by decide⟩

/-! ## Datapoint upserts (`cloud_sql_backend.py` lines 190-211) -/

/-- The key of one datapoint row in the relational store: the metric table
name, the formatted date, and the locale. -/
abbrev SqlKey : Type := String × String × String

/-- The relational store restricted to datapoint rows: a sequence of
(key, value) rows, in insertion order. -/
abbrev SqlStore : Type := List (SqlKey × ℚ)

/-- Embedding of the `%4d-%02d-01` date rendering used by `SetMetricData`
(space padding, as Python `%4d` pads with spaces). -/
def cloudSqlDateFmt (d : WDate) : String :=
  padLeft (Char.ofNat 32) 4 d.1 ++ "-" ++ padLeft (Char.ofNat 48) 2 d.2 ++ "-01"

/-- Embedding of `CloudSQLBackend.SetMetricData`: first delete every row
with the exact (metric, date, locale) key, then insert the new row. -/
def SetMetricData (metric : String) (date : WDate) (locale : String)
    (value : ℚ) (store : SqlStore) : SqlStore :=
  store.filter (fun r => ¬ r.1 = (metric, cloudSqlDateFmt date, locale)) ++
    [((metric, cloudSqlDateFmt date, locale), value)]

/-- Effect of one `ComputeMetricMonth` task on the relational store: every
computed datapoint is written through `SetMetricData` in order. -/
def RunComputeTask (metric : String) (date : WDate) (rows : List MRow)
    (store : SqlStore) : SqlStore :=
  (ComputeMetricDataWrites rows).foldl
    (fun s lv => SetMetricData metric date lv.1 lv.2 s) store

/-- A delete-then-insert upsert sequence, the shape shared by all
`SetMetricData` runs. -/
def upsertAll (ws : List (SqlKey × ℚ)) (s : SqlStore) : SqlStore :=
  ws.foldl (fun s kv => s.filter (fun r => ¬ r.1 = kv.1) ++ [kv]) s

/-- Keys touched by an upsert sequence. -/
def upsertKeys (ws : List (SqlKey × ℚ)) : List SqlKey :=
  ws.map (fun kv => kv.1)

/-- Number of rows of the store carrying a given key. -/
def keyCount (k : SqlKey) (s : SqlStore) : Nat :=
  (s.filter (fun r => r.1 = k)).length

theorem RunComputeTask_eq_upsertAll (metric : String) (date : WDate)
    (rows : List MRow) (store : SqlStore) :
    RunComputeTask metric date rows store =
      upsertAll ((ComputeMetricDataWrites rows).map
        (fun lv => ((metric, cloudSqlDateFmt date, lv.1), lv.2))) store := by
  unfold RunComputeTask upsertAll SetMetricData
  rw [List.foldl_map]

theorem upsertAll_split (ws : List (SqlKey × ℚ)) :
    ∀ s : SqlStore, upsertAll ws s =
      s.filter (fun r => ¬ r.1 ∈ upsertKeys ws) ++ upsertAll ws [] := by
  induction ws with
  | nil =>
      intro s
      simp [upsertAll, upsertKeys]
  | cons kv ws ih =>
      intro s
      obtain ⟨k, v⟩ := kv
      have hstep : ∀ t : SqlStore, upsertAll ((k, v) :: ws) t =
          upsertAll ws (t.filter (fun r => ¬ r.1 = k) ++ [(k, v)]) := by
        intro t
        rfl
      have hff : (s.filter (fun r => ¬ r.1 = k)).filter
          (fun r => ¬ r.1 ∈ upsertKeys ws) =
          s.filter (fun r => ¬ r.1 ∈ upsertKeys ((k, v) :: ws)) := by
        rw [List.filter_filter]
        apply List.filter_congr
        intro r _
        have hkeys : upsertKeys ((k, v) :: ws) = k :: upsertKeys ws := rfl
        rw [hkeys]
        by_cases h1 : r.1 = k <;> by_cases h2 : r.1 ∈ upsertKeys ws <;>
          simp [h1, h2]
      have hLHS : upsertAll ((k, v) :: ws) s =
          s.filter (fun r => ¬ r.1 ∈ upsertKeys ((k, v) :: ws)) ++
            (([((k : SqlKey), (v : ℚ))].filter
              (fun r => ¬ r.1 ∈ upsertKeys ws)) ++ upsertAll ws []) := by
        rw [hstep s, ih (s.filter (fun r => ¬ r.1 = k) ++ [(k, v)]),
          List.filter_append, List.append_assoc, hff]
      have hRHS : upsertAll ((k, v) :: ws) [] =
          ([((k : SqlKey), (v : ℚ))].filter
            (fun r => ¬ r.1 ∈ upsertKeys ws)) ++ upsertAll ws [] := by
        rw [hstep []]
        exact ih [(k, v)]
      rw [hLHS, hRHS]

theorem upsertAll_mem_keys (ws : List (SqlKey × ℚ)) :
    ∀ (s : SqlStore) (r : SqlKey × ℚ), r ∈ upsertAll ws s →
      r ∈ s ∨ r.1 ∈ upsertKeys ws := by
  induction ws with
  | nil =>
      intro s r h
      exact Or.inl h
  | cons kv ws ih =>
      intro s r h
      obtain ⟨k, v⟩ := kv
      have hstep : upsertAll ((k, v) :: ws) s =
          upsertAll ws (s.filter (fun r => ¬ r.1 = k) ++ [(k, v)]) := rfl
      rw [hstep] at h
      rcases ih _ r h with hin | hkeys
      · rcases List.mem_append.mp hin with hf | hkv
        · exact Or.inl (List.mem_of_mem_filter hf)
        · have : r = (k, v) := by simpa using hkv
          right
          rw [this]
          exact List.mem_cons_self k (upsertKeys ws)
      · right
        exact List.mem_cons_of_mem k hkeys

theorem upsertAll_idem (ws : List (SqlKey × ℚ)) (s : SqlStore) :
    upsertAll ws (upsertAll ws s) = upsertAll ws s := by
  rw [upsertAll_split ws (upsertAll ws s), upsertAll_split ws s]
  rw [List.filter_append]
  have h1 : (s.filter (fun r => ¬ r.1 ∈ upsertKeys ws)).filter
      (fun r => ¬ r.1 ∈ upsertKeys ws) =
      s.filter (fun r => ¬ r.1 ∈ upsertKeys ws) := by
    rw [List.filter_filter]
    apply List.filter_congr
    intro r _
    by_cases h : r.1 ∈ upsertKeys ws <;> simp [h]
  have h2 : (upsertAll ws []).filter (fun r => ¬ r.1 ∈ upsertKeys ws) = [] := by
    apply List.filter_eq_nil_iff.mpr
    intro r hr
    have := upsertAll_mem_keys ws [] r hr
    simp at this
    simp [this]
  rw [h1, h2]
  simp

theorem keyCount_append (k : SqlKey) (a b : SqlStore) :
    keyCount k (a ++ b) = keyCount k a + keyCount k b := by
  simp [keyCount, List.filter_append]

theorem keyCount_filter_ne (k k0 : SqlKey) (hk : ¬ k = k0) (s : SqlStore) :
    keyCount k (s.filter (fun r => ¬ r.1 = k0)) = keyCount k s := by
  unfold keyCount
  rw [List.filter_filter]
  apply congrArg List.length
  apply List.filter_congr
  intro r _
  by_cases h : r.1 = k
  · have h2 : ¬ r.1 = k0 := by
      rw [h]
      exact hk
    simp [h, h2, hk]
  · simp [h]

theorem keyCount_filter_self (k : SqlKey) (s : SqlStore) :
    keyCount k (s.filter (fun r => ¬ r.1 = k)) = 0 := by
  unfold keyCount
  rw [List.filter_filter]
  have : s.filter (fun r => decide (r.1 = k) && decide (¬ r.1 = k)) = [] := by
    apply List.filter_eq_nil_iff.mpr
    intro r _
    by_cases h : r.1 = k <;> simp [h]
  rw [this]
  rfl

theorem keyCount_upsertAll (ws : List (SqlKey × ℚ)) :
    ∀ (s : SqlStore) (k : SqlKey), keyCount k (upsertAll ws s) =
      if k ∈ upsertKeys ws then 1 else keyCount k s := by
  induction ws with
  | nil =>
      intro s k
      simp [upsertAll, upsertKeys]
  | cons kv ws ih =>
      intro s k
      obtain ⟨k0, v⟩ := kv
      have hstep : upsertAll ((k0, v) :: ws) s =
          upsertAll ws (s.filter (fun r => ¬ r.1 = k0) ++ [(k0, v)]) := rfl
      have hkeys : upsertKeys ((k0, v) :: ws) = k0 :: upsertKeys ws := rfl
      rw [hstep, ih, hkeys]
      by_cases hmem : k ∈ upsertKeys ws
      · have h1 : k ∈ k0 :: upsertKeys ws := List.mem_cons_of_mem _ hmem
        rw [if_pos hmem, if_pos h1]
      · by_cases hk : k = k0
        · subst hk
          have h1 : k ∈ k :: upsertKeys ws := List.mem_cons_self _ _
          rw [if_neg hmem, if_pos h1, keyCount_append, keyCount_filter_self]
          simp [keyCount]
        · have h1 : ¬ k ∈ k0 :: upsertKeys ws := by
            intro h
            rcases List.mem_cons.mp h with h2 | h2
            · exact hk h2
            · exact hmem h2
          rw [if_neg hmem, if_neg h1, keyCount_append,
            keyCount_filter_ne k k0 hk]
          have h2 : keyCount k [(k0, v)] = 0 := by
            simp [keyCount, show ¬ k0 = k from fun h => hk h.symm]
          rw [h2]
          omega

/-- C7: one `ComputeMetricMonth` task writes every datapoint through the
delete-then-insert upsert of `SetMetricData`, so running the task twice on
identical input rows leaves the relational store exactly as running it
once does, and every written (metric, date, locale) key holds exactly one
row afterwards. -/
theorem C7_compute_idempotent (metric : String) (date : WDate)
    (rows : List MRow) (store : SqlStore) :
    RunComputeTask metric date rows (RunComputeTask metric date rows store) =
      RunComputeTask metric date rows store ∧
    ∀ locale, locale ∈ (ComputeMetricDataWrites rows).map (fun lv => lv.1) →
      keyCount (metric, cloudSqlDateFmt date, locale)
        (RunComputeTask metric date rows store) = 1 := by
  constructor
  · rw [RunComputeTask_eq_upsertAll, RunComputeTask_eq_upsertAll]
    exact upsertAll_idem _ _
  · intro locale hmem
    rw [RunComputeTask_eq_upsertAll, keyCount_upsertAll]
    have hin : (metric, cloudSqlDateFmt date, locale) ∈
        upsertKeys ((ComputeMetricDataWrites rows).map
          (fun lv => ((metric, cloudSqlDateFmt date, lv.1), lv.2))) := by
      obtain ⟨lv, hlv, hfst⟩ := List.mem_map.mp hmem
      unfold upsertKeys
      rw [List.map_map]
      refine List.mem_map.mpr ⟨lv, hlv, ?_⟩
      simp [hfst]
    simp [hin]

/-- A row set with one hundred identical samples, used to witness C7. -/
def rowsHundred : List MRow := List.replicate 100 (MRow.mk "US" "CA" "MV" 10)

/-- Witness for C7: on one hundred identical rows the world locale is
written, and after one run its key holds exactly one row. -/
theorem C7_compute_idempotent_witness :
    "world" ∈ (ComputeMetricDataWrites rowsHundred).map (fun lv => lv.1) ∧
    keyCount ("m", cloudSqlDateFmt (2012, 1), "world")
      (RunComputeTask "m" (2012, 1) rowsHundred []) = 1 :=
  ⟨by decide,
   (C7_compute_idempotent "m" (2012, 1) rowsHundred []).2 "world" (by decide)⟩

/-! ## Result-retrieval deadlines (`big_query_client.py` lines 121-340) -/

/-- The per-job timing bookkeeping of `_BigQueryClient`: the start time and
total timeout recorded for one job, in milliseconds (`self._start_time` and
`self._total_timeout`), each unset (`None`) until the first retrieval. -/
structure CursorTiming where
  startTime : Option Int
  totalTimeout : Option Int
deriving DecidableEq, Repr

/-- Timing state of a job before any `GetQueryResults` call. -/
def initialCursorTiming : CursorTiming :=
  { startTime := none, totalTimeout := none }

/-- The possible failures of the retrieval path. -/
inductive BQError where
  | timeout
deriving DecidableEq, Repr

/-- Embedding of `_VerifyTimeMSecLeft` (`big_query_client.py` lines
331-340): raise `TimeoutError` when timing is unset or the elapsed time
has reached the total timeout, else return the remaining milliseconds. -/
def VerifyTimeMSecLeft (st : CursorTiming) (now : Int) : Except BQError Int :=
  match st.startTime, st.totalTimeout with
  | some start, some total =>
      if now - start ≥ total then .error .timeout
      else .ok (total - (now - start))
  | _, _ => .error .timeout

/-- Embedding of the timing reset at the top of `GetQueryResults`
(`big_query_client.py` lines 136-137): every call stores a fresh total
timeout and a fresh start time for the job. -/
def GetQueryResultsStart (_st : CursorTiming) (now : Int)
    (timeoutMsec : Int) : CursorTiming :=
  { startTime := some now, totalTimeout := some timeoutMsec }

/-- The deadline gate of one packet fetch in `_GetQueryResponse`
(`big_query_client.py` lines 309-316): `timeoutMs=self._VerifyTimeMSecLeft(...)`
is evaluated before `.execute()`, so an `ok` result means the network call
proceeds and an error means it was never attempted. -/
def PacketFetchGate (st : CursorTiming) (now : Int) : Except BQError Int :=
  VerifyTimeMSecLeft st now

/-- C5 counterexample: the deadline is reset by every `GetQueryResults`
call, not held for the cursor's lifetime.  A first retrieval call at time
0 with a 1000 ms budget fixes a deadline of 1000; a second retrieval call
at time 5000 — far past that deadline — resets the start time to 5000 and
its first packet fetch passes the deadline gate and reaches the network,
instead of failing fast. -/
theorem C5_deadline_reset_counterexample :
    (GetQueryResultsStart initialCursorTiming 0 1000).startTime = some 0 ∧
    (0 : Int) + 1000 ≤ 5000 ∧
    (GetQueryResultsStart
      (GetQueryResultsStart initialCursorTiming 0 1000) 5000 1000).startTime =
        some 5000 ∧
    PacketFetchGate
      (GetQueryResultsStart
        (GetQueryResultsStart initialCursorTiming 0 1000) 5000 1000) 5000 =
      .ok 1000 := by
  refine ⟨rfl, by norm_num, rfl, rfl⟩

/-- C5 amended: each `GetQueryResults` call establishes its own deadline
(the start time and the budget are stored afresh at every call, whatever
was recorded before), and within one call every packet fetch checks that
deadline first: once the elapsed time since the call's start reaches the
budget — in particular immediately, for a 0 ms budget — the gate fails
with `TimeoutError` before any network call is attempted. -/
theorem C5_per_call_deadline (st : CursorTiming) (callTime budget now : Int)
    (h : budget ≤ now - callTime) :
    (GetQueryResultsStart st callTime budget).startTime = some callTime ∧
    (GetQueryResultsStart st callTime budget).totalTimeout = some budget ∧
    PacketFetchGate (GetQueryResultsStart st callTime budget) now =
      .error .timeout := by
  refine ⟨rfl, rfl, ?_⟩
  unfold PacketFetchGate VerifyTimeMSecLeft GetQueryResultsStart
  simp only []
  rw [if_pos (by omega)]

/-- Witness for the amended C5: a 0 ms budget fails the first packet fetch
of the call at the call time itself, before any network call. -/
theorem C5_per_call_deadline_witness :
    ((0 : Int) ≤ (0 : Int) - 0) ∧
    PacketFetchGate (GetQueryResultsStart initialCursorTiming 0 0) 0 =
      .error .timeout :=
  ⟨by norm_num,
   (C5_per_call_deadline initialCursorTiming 0 0 0 (by norm_num)).2.2⟩

/-! ## Locale catalog (`common/locales.py`) -/

/-- The granularities of the locale catalog. -/
inductive LocaleType where
  | world
  | country
  | region
  | city
deriving DecidableEq, Repr

/-- One row of `GetLocaleData`: database id, locale short name, long name,
parent database id, latitude and longitude. -/
structure LocaleRow where
  locale_id : String
  locale : String
  name : String
  parent_id : String
  lat : ℚ
  lon : ℚ
deriving DecidableEq, Repr

/-- The `Locale` object of `locales.py`: every constructor argument except
the short name defaults to `None`, and `children` starts empty. -/
structure LocaleRec where
  name : String
  long_name : Option String
  latitude : Option ℚ
  longitude : Option ℚ
  parent : Option String
  children : List String
deriving DecidableEq, Repr

/-- Insert-or-replace on a Python dict embedded as an association list. -/
def pymapSet {β : Type} (m : List (String × β)) (k : String) (v : β) :
    List (String × β) :=
  match m with
  | [] => [(k, v)]
  | (k0, v0) :: rest =>
      if k0 = k then (k0, v) :: rest else (k0, v0) :: pymapSet rest k v

/-- Lookup on a Python dict embedded as an association list. -/
def pymapGet? {β : Type} (m : List (String × β)) (k : String) : Option β :=
  match m with
  | [] => none
  | (k0, v0) :: rest => if k0 = k then some v0 else pymapGet? rest k

/-- The `locales_by_type` dict: one locale-name list per granularity. -/
structure ByType where
  world : List String
  country : List String
  region : List String
  city : List String
deriving DecidableEq, Repr

/-- Appending a locale name to the list of one granularity. -/
def byTypeAppend (bt : ByType) (lt : LocaleType) (l : String) : ByType :=
  match lt with
  | .world => { bt with world := bt.world ++ [l] }
  | .country => { bt with country := bt.country ++ [l] }
  | .region => { bt with region := bt.region ++ [l] }
  | .city => { bt with city := bt.city ++ [l] }

/-- Projection of `locales_by_type` at a granularity. -/
def byTypeGet (bt : ByType) (lt : LocaleType) : List String :=
  match lt with
  | .world => bt.world
  | .country => bt.country
  | .region => bt.region
  | .city => bt.city

/-- Python exceptions that can escape the locale refresh paths. -/
inductive PyError where
  | refreshError
  | nameErrorParent
  | unboundLocalInfo
  | keyError
  | typeError
deriving DecidableEq, Repr

/-- The local variables of one `LocalesManager._Refresh` run: the three
dicts built from scratch plus the loop variable `info`, which stays unset
until the first successful backend load of the run. -/
structure BuildState where
  locales : List (String × LocaleRec)
  locales_by_type : ByType
  locales_by_id : List (String × String)
  info : Option (List LocaleRow)
deriving DecidableEq, Repr

/-- Fresh build state of a refresh run (`locales.py` lines 160-163): only
the world locale exists. -/
def initialBuildState : BuildState :=
  { locales := [("world", LocaleRec.mk "world" none none none none [])]
    locales_by_type := { world := ["world"], country := [], region := [], city := [] }
    locales_by_id := []
    info := none }

/-- Embedding of the row-parsing body of `LocalesManager._Refresh`
(`locales.py` lines 176-188).  The locale is stored, registered under its
granularity and database id; then, when the parent reference resolves in
`locales_by_id`, the source executes `locales[locales_by_id[parent]]` where
the name `parent` is undefined, raising a `NameError`; when it does not
resolve, the locale's parent is reset to `None`. -/
def processRow (lt : LocaleType) (bs : BuildState) (row : LocaleRow) :
    Except PyError BuildState :=
  let entry := LocaleRec.mk row.locale (some row.name) (some row.lat)
    (some row.lon) (some row.parent_id) []
  let locales := pymapSet bs.locales row.locale entry
  let by_type := byTypeAppend bs.locales_by_type lt row.locale
  let by_id := pymapSet bs.locales_by_id row.locale_id row.locale
  if (pymapGet? by_id row.parent_id).isSome then
    Except.error PyError.nameErrorParent
  else
    Except.ok { locales := pymapSet locales row.locale { entry with parent := none }
                locales_by_type := by_type
                locales_by_id := by_id
                info := bs.info }

/-- One granularity iteration of `LocalesManager._Refresh` (`locales.py`
lines 167-188): on a load failure the error is logged; the run raises
`RefreshError` only when no prior snapshot exists, otherwise it falls
through — without `continue` — to the parse loop, which reads the `info`
variable left over from the previous iteration (an unbound-local error if
no iteration has succeeded yet). -/
def granLoad (lt : LocaleType) (backendResult : Except String (List LocaleRow))
    (hadPrior : Bool) (bs : BuildState) : Except PyError BuildState := do
  let bs1 ← match backendResult with
    | .ok rows => Except.ok { bs with info := some rows }
    | .error _ =>
        if hadPrior then Except.ok bs
        else Except.error PyError.refreshError
  match bs1.info with
  | none => Except.error PyError.unboundLocalInfo
  | some rows => rows.foldlM (processRow lt) bs1

/-- Timeout between catalog refreshes (`LOCALE_REFRESH_RATE`, two days),
in milliseconds. -/
def LOCALE_REFRESH_RATE : Int := 172800000

/-- The durable state of a `LocalesManager`. -/
structure ManagerState where
  disable_refresh : Bool
  locales : Option (List (String × LocaleRec))
  locales_by_type : Option ByType
  last_refresh : Int
deriving DecidableEq, Repr

/-- A freshly constructed `LocalesManager`: no snapshot, epoch timestamp. -/
def initialManagerState : ManagerState :=
  { disable_refresh := false, locales := none, locales_by_type := none
    last_refresh := 0 }

/-- Embedding of `LocalesManager._Refresh` (`locales.py` lines 151-193):
skip when refreshing is disabled or the snapshot is young; otherwise build
from scratch over country, region, city in order and replace the snapshot
and timestamp only at the very end of a run that raised nothing. -/
def LocalesManagerRefresh (backend : LocaleType → Except String (List LocaleRow))
    (now : Int) (st : ManagerState) : Except PyError ManagerState :=
  if st.disable_refresh then Except.ok st
  else if now - st.last_refresh < LOCALE_REFRESH_RATE then Except.ok st
  else
    let hadPrior := st.locales.isSome
    match granLoad .country (backend .country) hadPrior initialBuildState >>=
        granLoad .region (backend .region) hadPrior >>=
        granLoad .city (backend .city) hadPrior with
    | .error e => Except.error e
    | .ok bs =>
        Except.ok { st with
          locales := some bs.locales
          locales_by_type := some bs.locales_by_type
          last_refresh := now }

/-- Embedding of `LocalesManager.ForceRefresh`: reset the timestamp to the
epoch, then refresh. -/
def ForceRefresh (backend : LocaleType → Except String (List LocaleRow))
    (now : Int) (st : ManagerState) : Except PyError ManagerState :=
  LocalesManagerRefresh backend now { st with last_refresh := 0 }

/-- A country row whose parent reference (the world) is not a loaded
database id, so it resolves to no parent. -/
def usRow : LocaleRow := ⟨"1", "US", "United States", "0", 40, -100⟩

/-- A region row whose parent reference is the database id of the country
row above, so it resolves. -/
def caRegionRow : LocaleRow := ⟨"2", "US_CA", "California", "1", 37, -120⟩

/-- A region row with a dangling parent reference. -/
def orphanRow : LocaleRow := ⟨"3", "ZZ_QQ", "Orphan", "99", 5, 6⟩

/-- A manager that already holds a snapshot from an earlier successful
refresh (here: only the world locale), due for a new refresh. -/
def priorManagerState : ManagerState :=
  { disable_refresh := false
    locales := some [("world", LocaleRec.mk "world" none none none none [])]
    locales_by_type := some (ByType.mk ["world"] [] [] [])
    last_refresh := 0 }

/-- A backend whose region load fails. -/
def regionFailBackend : LocaleType → Except String (List LocaleRow) :=
  fun lt => match lt with
    | .country => .ok [usRow]
    | .region => .error "load failed"
    | _ => .ok []

/-- A backend whose country load (the first granularity) fails. -/
def countryFailBackend : LocaleType → Except String (List LocaleRow) :=
  fun lt => match lt with
    | .country => .error "load failed"
    | _ => .ok []

/-- A backend returning a region row whose parent reference resolves. -/
def resolvingBackend : LocaleType → Except String (List LocaleRow) :=
  fun lt => match lt with
    | .country => .ok [usRow]
    | .region => .ok [caRegionRow]
    | _ => .ok []

/-- A backend returning a region row with a dangling parent reference. -/
def danglingBackend : LocaleType → Except String (List LocaleRow) :=
  fun lt => match lt with
    | .country => .ok [usRow]
    | .region => .ok [orphanRow]
    | _ => .ok []

deriving instance DecidableEq for Except

theorem exceptBind_ok {ε α β : Type} (a : α) (f : α → Except ε β) :
    (Except.ok a >>= f) = f a := rfl

theorem exceptBind_error {ε α β : Type} (e : ε) (f : α → Except ε β) :
    ((Except.error e : Except ε α) >>= f) = Except.error e := rfl

/-- C3 (code bug): a backend load failure during a refresh with a prior
snapshot does not leave that snapshot unchanged.  When the region load
fails, the loop falls through with the stale `info` of the country
iteration, re-parses the country rows as regions, and installs the
corrupted snapshot (the country locale US ends up in the region list);
when the country load (the first granularity) fails, the run stops with an
unbound-local error on `info` instead of merely logging. -/
theorem C3_subsequent_refresh_failure :
    (LocalesManagerRefresh regionFailBackend LOCALE_REFRESH_RATE
        priorManagerState).toOption.map ManagerState.locales_by_type =
      some (some (ByType.mk ["world"] ["US"] ["US"] [])) ∧
    priorManagerState.locales_by_type = some (ByType.mk ["world"] [] [] []) ∧
    (LocalesManagerRefresh regionFailBackend LOCALE_REFRESH_RATE
        priorManagerState).toOption.map ManagerState.locales ≠
      some priorManagerState.locales ∧
    LocalesManagerRefresh countryFailBackend LOCALE_REFRESH_RATE
      priorManagerState = Except.error PyError.unboundLocalInfo := by
  refine ⟨by decide, rfl, by decide, by decide⟩

/-- C4 (code bug): a loaded row whose parent reference does not resolve is
stored with no parent, as claimed; but a row whose parent reference does
resolve makes the refresh raise a `NameError` — line 186 of `locales.py`
reads the undefined name `parent` instead of `parent_id` — rather than
storing the row and appending it to the parent's children. -/
theorem C4_parent_resolution :
    LocalesManagerRefresh resolvingBackend LOCALE_REFRESH_RATE
      initialManagerState = Except.error PyError.nameErrorParent ∧
    (LocalesManagerRefresh danglingBackend LOCALE_REFRESH_RATE
        initialManagerState).toOption.map
        (fun st => st.locales.map (fun ls => pymapGet? ls "ZZ_QQ")) =
      some (some (some
        (LocaleRec.mk "ZZ_QQ" (some "Orphan") (some 5) (some 6) none []))) ∧
    (LocalesManagerRefresh danglingBackend LOCALE_REFRESH_RATE
        initialManagerState).toOption.map
        (fun st => st.locales_by_type.map ByType.region) =
      some (some ["ZZ_QQ"]) := by
  refine ⟨by decide, by decide, by decide⟩

/-! ## Nearest-neighbor index (`LocaleFinder` and `GeoTree`) -/

/-- The data held by one `GeoTree`: the (Cartesian key, locale) pairs the
KD-tree is built from. -/
abbrev GeoData : Type := List ((Int × Int × Int) × String)

/-- Embedding of the `GeoTree` constructor (`locales.py` lines 234-250):
each target locale is fetched from the manager snapshot (a `KeyError` if
unknown) and projected from latitude and longitude (a `TypeError` if the
locale has no coordinates, as `math.radians(None)` raises).  The
projection itself is a parameter here; `LatLonToCartesian` below is the
concrete one of the source. -/
def GeoTreeBuild (proj : ℚ → ℚ → Int × Int × Int) (targets : List String)
    (locales : List (String × LocaleRec)) : Except PyError GeoData :=
  targets.foldlM (fun acc tgt =>
    match pymapGet? locales tgt with
    | none => Except.error PyError.keyError
    | some entry =>
        match entry.latitude, entry.longitude with
        | some lat, some lon => Except.ok (acc ++ [(proj lat lon, tgt)])
        | _, _ => Except.error PyError.typeError) []

/-- The durable state of a `LocaleFinder`: the three GeoTrees, unset until
the first successful refresh, and the last-build timestamp. -/
structure FinderState where
  countries : Option GeoData
  regions : Option GeoData
  cities : Option GeoData
  last_refresh : Int
deriving DecidableEq, Repr

/-- A freshly constructed `LocaleFinder`. -/
def initialFinderState : FinderState :=
  { countries := none, regions := none, cities := none, last_refresh := 0 }

/-- Reading a manager snapshot field that is still `None` raises a
`TypeError` in Python; a populated field is read through. -/
def snapshotField {β : Type} (o : Option β) : Except PyError β :=
  match o with
  | some b => Except.ok b
  | none => Except.error PyError.typeError

/-- Embedding of `LocaleFinder._Refresh` (`locales.py` lines 374-392):
skip when the snapshot is young; otherwise force-refresh a fresh
`LocalesManager` (so any load failure raises `RefreshError`), build the
three GeoTrees, and only then assign all three trees and the timestamp. -/
def LocaleFinderRefresh (proj : ℚ → ℚ → Int × Int × Int)
    (backend : LocaleType → Except String (List LocaleRow)) (now : Int)
    (st : FinderState) : Except PyError FinderState :=
  if now - st.last_refresh < LOCALE_REFRESH_RATE then Except.ok st
  else
    ForceRefresh backend now initialManagerState >>= fun lmSt =>
    snapshotField lmSt.locales >>= fun ls =>
    snapshotField lmSt.locales_by_type >>= fun bt =>
    GeoTreeBuild proj bt.country ls >>= fun countries =>
    GeoTreeBuild proj bt.region ls >>= fun regions =>
    GeoTreeBuild proj bt.city ls >>= fun cities =>
    Except.ok (FinderState.mk (some countries) (some regions) (some cities) now)

/-- C8: a due `LocaleFinder` refresh is all-or-nothing: either some step
fails, that error propagates and the caller's three trees and timestamp
stay untouched (no new state is produced), or every step succeeded and
the produced state carries all three freshly built trees together with
the new timestamp — never a mixture of fresh and stale trees. -/
theorem C8_all_or_nothing_refresh (proj : ℚ → ℚ → Int × Int × Int)
    (backend : LocaleType → Except String (List LocaleRow)) (now : Int)
    (st : FinderState) (hdue : LOCALE_REFRESH_RATE ≤ now - st.last_refresh) :
    (∃ e, LocaleFinderRefresh proj backend now st = Except.error e) ∨
    (∃ lmSt ls bt c r ci,
      ForceRefresh backend now initialManagerState = Except.ok lmSt ∧
      lmSt.locales = some ls ∧ lmSt.locales_by_type = some bt ∧
      GeoTreeBuild proj bt.country ls = Except.ok c ∧
      GeoTreeBuild proj bt.region ls = Except.ok r ∧
      GeoTreeBuild proj bt.city ls = Except.ok ci ∧
      LocaleFinderRefresh proj backend now st =
        Except.ok (FinderState.mk (some c) (some r) (some ci) now)) := by
  have hskip : ¬ now - st.last_refresh < LOCALE_REFRESH_RATE := by omega
  have hdef : LocaleFinderRefresh proj backend now st =
      (ForceRefresh backend now initialManagerState >>= fun lmSt =>
       snapshotField lmSt.locales >>= fun ls =>
       snapshotField lmSt.locales_by_type >>= fun bt =>
       GeoTreeBuild proj bt.country ls >>= fun countries =>
       GeoTreeBuild proj bt.region ls >>= fun regions =>
       GeoTreeBuild proj bt.city ls >>= fun cities =>
       Except.ok (FinderState.mk (some countries) (some regions)
         (some cities) now)) := by
    unfold LocaleFinderRefresh
    rw [if_neg hskip]
  cases hfr : ForceRefresh backend now initialManagerState with
  | error e =>
      rw [hfr, exceptBind_error] at hdef
      exact Or.inl ⟨e, hdef⟩
  | ok lmSt =>
      rw [hfr, exceptBind_ok] at hdef
      cases hls : lmSt.locales with
      | none =>
          rw [hls] at hdef
          rw [show snapshotField (none : Option (List (String × LocaleRec))) =
            Except.error PyError.typeError from rfl, exceptBind_error] at hdef
          exact Or.inl ⟨PyError.typeError, hdef⟩
      | some ls =>
          rw [hls] at hdef
          rw [show snapshotField (some ls) = Except.ok ls from rfl,
            exceptBind_ok] at hdef
          cases hbt : lmSt.locales_by_type with
          | none =>
              rw [hbt] at hdef
              rw [show snapshotField (none : Option ByType) =
                Except.error PyError.typeError from rfl, exceptBind_error] at hdef
              exact Or.inl ⟨PyError.typeError, hdef⟩
          | some bt =>
              rw [hbt] at hdef
              rw [show snapshotField (some bt) = Except.ok bt from rfl,
                exceptBind_ok] at hdef
              cases hc : GeoTreeBuild proj bt.country ls with
              | error e =>
                  rw [hc, exceptBind_error] at hdef
                  exact Or.inl ⟨e, hdef⟩
              | ok c =>
                  rw [hc, exceptBind_ok] at hdef
                  cases hr : GeoTreeBuild proj bt.region ls with
                  | error e =>
                      rw [hr, exceptBind_error] at hdef
                      exact Or.inl ⟨e, hdef⟩
                  | ok r =>
                      rw [hr, exceptBind_ok] at hdef
                      cases hci : GeoTreeBuild proj bt.city ls with
                      | error e =>
                          rw [hci, exceptBind_error] at hdef
                          exact Or.inl ⟨e, hdef⟩
                      | ok ci =>
                          rw [hci, exceptBind_ok] at hdef
                          exact Or.inr ⟨lmSt, ls, bt, c, r, ci, rfl, hls, hbt,
                            hc, hr, hci, hdef⟩

/-- Witness for C8: a due refresh against an all-empty backend with a
trivial projection satisfies the all-or-nothing disjunction. -/
theorem C8_all_or_nothing_refresh_witness :
    LOCALE_REFRESH_RATE ≤ LOCALE_REFRESH_RATE - initialFinderState.last_refresh ∧
    ((∃ e, LocaleFinderRefresh (fun _ _ => (0, 0, 0))
        (fun _ => Except.ok []) LOCALE_REFRESH_RATE initialFinderState =
          Except.error e) ∨
     (∃ lmSt ls bt c r ci,
       ForceRefresh (fun _ => Except.ok []) LOCALE_REFRESH_RATE
         initialManagerState = Except.ok lmSt ∧
       lmSt.locales = some ls ∧ lmSt.locales_by_type = some bt ∧
       GeoTreeBuild (fun _ _ => (0, 0, 0)) bt.country ls = Except.ok c ∧
       GeoTreeBuild (fun _ _ => (0, 0, 0)) bt.region ls = Except.ok r ∧
       GeoTreeBuild (fun _ _ => (0, 0, 0)) bt.city ls = Except.ok ci ∧
       LocaleFinderRefresh (fun _ _ => (0, 0, 0)) (fun _ => Except.ok [])
           LOCALE_REFRESH_RATE initialFinderState =
         Except.ok (FinderState.mk (some c) (some r) (some ci)
           LOCALE_REFRESH_RATE))) :=
  ⟨by decide,
   C8_all_or_nothing_refresh (fun _ _ => (0, 0, 0)) (fun _ => Except.ok [])
     LOCALE_REFRESH_RATE initialFinderState (by decide)⟩

/-! ## Cartesian projection (`GeoTree._LatLonToCartesian`) -/

/-- Embedding of the Python `int()` conversion: truncation toward zero. -/
noncomputable def pyint (x : ℝ) : ℤ := if 0 ≤ x then ⌊x⌋ else ⌈x⌉

/-- Embedding of `math.radians`. -/
noncomputable def radiansOf (d : ℝ) : ℝ := d * Real.pi / 180

/-- The radius term of the projection (`r = (2 ** 31) - 1`). -/
noncomputable def GEO_RADIUS : ℝ := 2 ^ 31 - 1

/-- Embedding of `GeoTree._LatLonToCartesian` (`locales.py` lines
267-293): convert the coordinates to radians, then take
`x = r sin(lat) cos(lon)`, `y = r sin(lat) sin(lon)`, `z = r cos(lat)` and
truncate each to an integer. -/
noncomputable def LatLonToCartesian (lat lon : ℝ) : ℤ × ℤ × ℤ :=
  (pyint (GEO_RADIUS * Real.sin (radiansOf lat) * Real.cos (radiansOf lon)),
   pyint (GEO_RADIUS * Real.sin (radiansOf lat) * Real.sin (radiansOf lon)),
   pyint (GEO_RADIUS * Real.cos (radiansOf lat)))

/-- Squared Euclidean distance between projected integer coordinates, the
comparison the KD-tree lookup is based on. -/
def sqDistZ (p q : ℤ × ℤ × ℤ) : ℤ :=
  (p.1 - q.1) ^ 2 + (p.2.1 - q.2.1) ^ 2 + (p.2.2 - q.2.2) ^ 2

/-- The true central angle between two points given in degrees, by the
spherical law of cosines — the claim's "true great-circle distance" (the
distance is this angle times the Earth radius, so ordering agrees). -/
noncomputable def greatCircleAngle (lat1 lon1 lat2 lon2 : ℝ) : ℝ :=
  Real.arccos (Real.sin (radiansOf lat1) * Real.sin (radiansOf lat2) +
    Real.cos (radiansOf lat1) * Real.cos (radiansOf lat2) *
      Real.cos (radiansOf lon1 - radiansOf lon2))

/-- Modelled from the spec: the KD-tree under `GeoTree` comes from the
vendored `deps.kdtree` module, which is not part of the repository
sources; per the specification its nearest-neighbor query returns the
stored entry whose Cartesian key is closest to the query key by Euclidean
distance.  Ties keep the earlier entry. -/
noncomputable def FindNearestNeighbor (data : GeoData) (cart : ℤ × ℤ × ℤ) :
    Option String :=
  match data with
  | [] => none
  | first :: rest =>
      some ((rest.foldl
        (fun best kv => if sqDistZ kv.1 cart < sqDistZ best.1 cart then kv
          else best) first).2)

theorem latlon_northpole : LatLonToCartesian 90 0 = (2147483647, 0, 0) := by
  unfold LatLonToCartesian radiansOf GEO_RADIUS
  rw [show (90 : ℝ) * Real.pi / 180 = Real.pi / 2 from by ring,
    show (0 : ℝ) * Real.pi / 180 = 0 from by ring,
    Real.sin_pi_div_two, Real.cos_pi_div_two, Real.sin_zero, Real.cos_zero]
  have hx : pyint (((2 : ℝ) ^ 31 - 1) * 1 * 1) = 2147483647 := by
    unfold pyint
    rw [if_pos (by norm_num)]
    norm_num
  have hy : pyint (((2 : ℝ) ^ 31 - 1) * 1 * 0) = 0 := by
    unfold pyint
    norm_num
  have hz : pyint (((2 : ℝ) ^ 31 - 1) * 0) = 0 := by
    unfold pyint
    norm_num
  rw [hx, hy, hz]

theorem latlon_origin : LatLonToCartesian 0 0 = (0, 0, 2147483647) := by
  unfold LatLonToCartesian radiansOf GEO_RADIUS
  rw [show (0 : ℝ) * Real.pi / 180 = 0 from by ring, Real.sin_zero,
    Real.cos_zero]
  have hx : pyint (((2 : ℝ) ^ 31 - 1) * 0 * 1) = 0 := by
    unfold pyint
    norm_num
  have hy : pyint (((2 : ℝ) ^ 31 - 1) * 0 * 0) = 0 := by
    unfold pyint
    norm_num
  have hz : pyint (((2 : ℝ) ^ 31 - 1) * 1) = 2147483647 := by
    unfold pyint
    rw [if_pos (by norm_num)]
    norm_num
  rw [hx, hy, hz]

theorem latlon_thirty_x : (LatLonToCartesian 30 180).1 = -1073741823 := by
  unfold LatLonToCartesian radiansOf GEO_RADIUS
  rw [show (30 : ℝ) * Real.pi / 180 = Real.pi / 6 from by ring,
    show (180 : ℝ) * Real.pi / 180 = Real.pi from by ring,
    Real.sin_pi_div_six, Real.cos_pi]
  show pyint (((2 : ℝ) ^ 31 - 1) * (1 / 2) * (-1)) = -1073741823
  unfold pyint
  rw [if_neg (by norm_num)]
  rw [Int.ceil_eq_iff]
  constructor <;> norm_num

theorem latlon_thirty_y : (LatLonToCartesian 30 180).2.1 = 0 := by
  unfold LatLonToCartesian radiansOf GEO_RADIUS
  rw [show (30 : ℝ) * Real.pi / 180 = Real.pi / 6 from by ring,
    show (180 : ℝ) * Real.pi / 180 = Real.pi from by ring,
    Real.sin_pi_div_six, Real.sin_pi]
  show pyint (((2 : ℝ) ^ 31 - 1) * (1 / 2) * 0) = 0
  unfold pyint
  norm_num

theorem gc_northpole_thirty :
    greatCircleAngle 90 0 30 180 = Real.arccos (1 / 2) := by
  unfold greatCircleAngle radiansOf
  rw [show (90 : ℝ) * Real.pi / 180 = Real.pi / 2 from by ring,
    show (30 : ℝ) * Real.pi / 180 = Real.pi / 6 from by ring,
    show (0 : ℝ) * Real.pi / 180 - 180 * Real.pi / 180 = -Real.pi from by ring,
    Real.sin_pi_div_two, Real.cos_pi_div_two, Real.sin_pi_div_six,
    Real.cos_pi_div_six, Real.cos_neg, Real.cos_pi]
  norm_num

theorem gc_northpole_origin :
    greatCircleAngle 90 0 0 0 = Real.arccos 0 := by
  unfold greatCircleAngle radiansOf
  rw [show (90 : ℝ) * Real.pi / 180 = Real.pi / 2 from by ring,
    show (0 : ℝ) * Real.pi / 180 = 0 from by ring,
    Real.sin_pi_div_two, Real.cos_pi_div_two, Real.sin_zero, Real.cos_zero]
  norm_num

/-- C9 (code bug): the projection does not preserve nearest-neighbor
ordering.  For the query point at latitude 90, longitude 0 and the two
stored locales A = (30, 180) and B = (0, 0) — neither coincident nor
antipodal to each other (their latitudes are not opposite) — A is strictly
closer on the globe (central angle 60 versus 90 degrees), yet B is
strictly closer in squared Euclidean distance between the projected
integer coordinates, so the nearest-neighbor query returns B.  The
formula uses `sin(lat)` for x, y and `cos(lat)` for z, treating the
geographic latitude as a polar angle, which is not an isometry of the
sphere, contradicting the promise of `FindNearestNeighbor` to return the
locale located closest to the given coordinates. -/
theorem C9_projection_breaks_ordering :
    greatCircleAngle 90 0 30 180 < greatCircleAngle 90 0 0 0 ∧
    sqDistZ (LatLonToCartesian 0 0) (LatLonToCartesian 90 0) <
      sqDistZ (LatLonToCartesian 30 180) (LatLonToCartesian 90 0) ∧
    FindNearestNeighbor
        [(LatLonToCartesian 30 180, "A"), (LatLonToCartesian 0 0, "B")]
        (LatLonToCartesian 90 0) = some "B" ∧
    ((30 : ℝ), (180 : ℝ)) ≠ ((0 : ℝ), (0 : ℝ)) ∧ (30 : ℝ) ≠ -(0 : ℝ) := by
  have hgc : greatCircleAngle 90 0 30 180 < greatCircleAngle 90 0 0 0 := by
    rw [gc_northpole_thirty, gc_northpole_origin]
    exact Real.strictAntiOn_arccos (by norm_num) (by norm_num) (by norm_num)
  have hdist : sqDistZ (LatLonToCartesian 0 0) (LatLonToCartesian 90 0) <
      sqDistZ (LatLonToCartesian 30 180) (LatLonToCartesian 90 0) := by
    have hz := sq_nonneg ((LatLonToCartesian 30 180).2.2 - 0)
    unfold sqDistZ
    rw [latlon_northpole, latlon_origin, latlon_thirty_x, latlon_thirty_y]
    dsimp only
    nlinarith [hz]
  refine ⟨hgc, hdist, ?_, by norm_num, by norm_num⟩
  unfold FindNearestNeighbor
  simp only [List.foldl]
  rw [if_pos hdist]
